import Mathlib

/-!
Verification of the shared-memory io-queue bootstrap of `src/runtime/ioqueues.c`.

The per-function definitions below are shallow embeddings of the C source.
Pointer cursors are modelled as byte offsets from the base of the control
region (the region base returned by `mem_map_shm` is huge-page aligned, so
offset arithmetic and absolute-address arithmetic agree on all alignments
used here).  Numeric constants whose definitions live in headers outside
`src/` (sizes of structs, page and cache-line sizes, ethernet bit masks) are
modelled from the spec; each such definition says so in its doc comment.
-/

/-- Modelled from the spec: cache-line granularity used by the layout
(`CACHE_LINE_SIZE` from the base headers, 64 bytes on x86). -/
def CACHE_LINE_SIZE : Nat := 64

/-- Modelled from the spec: the huge-page size, 2MB (`PGSIZE_2MB`). -/
def PGSIZE_2MB : Nat := 2097152

/-- Capacity of the receive and transmit-packet rings (`ioqueues.c` line 25). -/
def PACKET_QUEUE_MCOUNT : Nat := 8192

/-- Capacity of the transmit-command ring (`ioqueues.c` line 26). -/
def COMMAND_QUEUE_MCOUNT : Nat := 8192

/-- Modelled from the spec: the fixed transmit-buffer unit `MBUF_DEFAULT_LEN`
(2048 bytes; it must hold a maximum-size frame plus its header and must
divide the huge-page size, per the two build-time assertions in
`calculate_shm_space`). -/
def MBUF_DEFAULT_LEN : Nat := 2048

/-- Modelled from the spec: `sizeof(struct lrpc_msg)`, the fixed message
size of the lock-free ring (two 8-byte words). -/
def sizeof_lrpc_msg : Nat := 16

/-- Size of the 4-byte write-back word (`sizeof(uint32_t)`). -/
def sizeof_uint32 : Nat := 4

/-- Modelled from the spec: `sizeof(struct control_hdr)` (magic, thread
count, 6-byte identity, scheduling configuration, flexible descriptor
array). -/
def sizeof_control_hdr : Nat := 32

/-- Modelled from the spec: `sizeof(struct thread_spec)` (three queue
descriptors of three 8-byte fields each). -/
def sizeof_thread_spec : Nat := 72

/-- Modelled from the spec: number of bytes of a hardware identity
(`ETH_ADDR_LEN`). -/
def eth_addr_len : Nat := 6

/-- Modelled from the spec: `sizeof(mem_key_t)`, the width of a
shared-memory key.  The build-time assertion in `ioqueues_shm_setup`
requires it to be at most `eth_addr_len`; System V IPC keys are 4 bytes. -/
def sizeof_mem_key : Nat := 4

/-- Modelled from the spec: width of the fixed-width region length sent in
the handshake (`sizeof(netcfg.tx_region.len)`, a `size_t`). -/
def sizeof_size_t : Nat := 8

/-- The C `align_up(x, a)` macro for a power-of-two `a`; for `0 < a` the
mask form used in the source equals this division form. -/
def align_up (x a : Nat) : Nat := (x + a - 1) / a * a

/-- `calculate_shm_space` (`ioqueues.c` lines 53-84): total control-region
byte length for `thread_count` threads. -/
def calculate_shm_space (thread_count : Nat) : Nat :=
  let ret0 := sizeof_control_hdr + sizeof_thread_spec * thread_count
  let ret1 := align_up ret0 CACHE_LINE_SIZE
  let qp := align_up (sizeof_lrpc_msg * PACKET_QUEUE_MCOUNT) CACHE_LINE_SIZE
      + align_up sizeof_uint32 CACHE_LINE_SIZE
  let ret2 := ret1 + 2 * qp * thread_count
  let qc := align_up (sizeof_lrpc_msg * COMMAND_QUEUE_MCOUNT) CACHE_LINE_SIZE
      + align_up sizeof_uint32 CACHE_LINE_SIZE
  let ret3 := ret2 + qc * thread_count
  let ret4 := align_up ret3 PGSIZE_2MB
  let ret5 := ret4 + MBUF_DEFAULT_LEN * PACKET_QUEUE_MCOUNT
  align_up ret5 PGSIZE_2MB

/-- `struct queue_spec`: region-relative offsets of one ring's message
buffer and write-back word, plus its capacity. -/
structure queue_spec where
  msg_buf : Nat
  wb : Nat
  msg_count : Nat
deriving DecidableEq

/-- `struct thread_spec`: the three queue descriptors of one thread. -/
structure thread_spec where
  rxq : queue_spec
  txpktq : queue_spec
  txcmdq : queue_spec
deriving DecidableEq

/-- `ioqueue_alloc` (`ioqueues.c` lines 86-96): carve one ring at cursor
`ptr`, returning the descriptor and the advanced cursor. -/
def ioqueue_alloc (ptr : Nat) (msg_count : Nat) : queue_spec × Nat :=
  let p1 := ptr + align_up (sizeof_lrpc_msg * msg_count) CACHE_LINE_SIZE
  ({ msg_buf := ptr, wb := p1, msg_count := msg_count },
    p1 + align_up sizeof_uint32 CACHE_LINE_SIZE)

/-- One iteration of the carving loop in `ioqueues_shm_setup` (lines
138-143): receive, transmit-packet, then transmit-command queue. -/
def carve_thread (ptr : Nat) : thread_spec × Nat :=
  let a1 := ioqueue_alloc ptr PACKET_QUEUE_MCOUNT
  let a2 := ioqueue_alloc a1.2 PACKET_QUEUE_MCOUNT
  let a3 := ioqueue_alloc a2.2 COMMAND_QUEUE_MCOUNT
  ({ rxq := a1.1, txpktq := a2.1, txcmdq := a3.1 }, a3.2)

/-- The carving loop over thread indices in ascending order. -/
def carve_threads : Nat → Nat → List thread_spec × Nat
  | 0, ptr => ([], ptr)
  | n + 1, ptr =>
    let t := carve_thread ptr
    let rest := carve_threads n t.2
    (t.1 :: rest.1, rest.2)

/-- The initial cursor of the carving walk (`ioqueues_shm_setup` lines
134-136): just past the header and descriptor table, aligned up to the
cache-line size. -/
def carve_start (threads : Nat) : Nat :=
  align_up (sizeof_control_hdr + sizeof_thread_spec * threads) CACHE_LINE_SIZE

/-- The full carve performed by `ioqueues_shm_setup`: all thread
descriptors and the final cursor. -/
def ioqueues_carve (threads : Nat) : List thread_spec × Nat :=
  carve_threads threads (carve_start threads)

/-- The two byte ranges `(offset, length)` recorded by one queue
descriptor: its message buffer and its write-back word. -/
def queue_ranges (q : queue_spec) : List (Nat × Nat) :=
  [(q.msg_buf, sizeof_lrpc_msg * q.msg_count), (q.wb, sizeof_uint32)]

/-- All six ranges of one thread's descriptors. -/
def thread_ranges (t : thread_spec) : List (Nat × Nat) :=
  queue_ranges t.rxq ++ queue_ranges t.txpktq ++ queue_ranges t.txcmdq

/-- Every `(offset, length)` range produced by carving for `T` threads. -/
def carve_ranges (T : Nat) : List (Nat × Nat) :=
  ((ioqueues_carve T).1.map thread_ranges).flatten

/-- Two ranges do not overlap. -/
def RangeDisj (a b : Nat × Nat) : Prop := a.1 + a.2 ≤ b.1 ∨ b.1 + b.2 ≤ a.1

/-- A list of ranges laid out in cursor order between `lo` and `hi`. -/
def ChainedIn : Nat → Nat → List (Nat × Nat) → Prop
  | lo, hi, [] => lo ≤ hi
  | lo, hi, r :: rest => lo ≤ r.1 ∧ ChainedIn (r.1 + r.2) hi rest

/-- The spec's per-ring size (aligned message storage plus aligned
write-back word), used to state the layout lower bound of §4.1. -/
def queue_size (msg_count : Nat) : Nat :=
  align_up (sizeof_lrpc_msg * msg_count) CACHE_LINE_SIZE
    + align_up sizeof_uint32 CACHE_LINE_SIZE

/-- Header plus descriptor table plus all per-thread queue sizes, the raw
sum that `calculate_shm_space` must strictly exceed. -/
def raw_layout_sum (T : Nat) : Nat :=
  sizeof_control_hdr + sizeof_thread_spec * T
    + T * (2 * queue_size PACKET_QUEUE_MCOUNT + queue_size COMMAND_QUEUE_MCOUNT)

/-- Modelled from the spec: `ETH_ADDR_GROUP`, the group (multicast) bit of
the first identity byte — the spec's fixup rule forces "bit 0 of the first
byte" to 0, the IEEE individual/group bit. -/
def ETH_ADDR_GROUP : Nat := 1

/-- Modelled from the spec: `ETH_ADDR_LOCAL_ADMIN`, the locally-administered
bit — the spec's fixup rule forces "bit 1 of the first byte" to 1. -/
def ETH_ADDR_LOCAL_ADMIN : Nat := 2

/-- The identity fixup applied to the first random byte by
`generate_random_mac` (lines 46-47): `addr[0] &= ~ETH_ADDR_GROUP;
addr[0] |= ETH_ADDR_LOCAL_ADMIN;` (on 8-bit bytes). -/
def mac_fixup (b0 : Nat) : Nat :=
  (b0 &&& (255 - ETH_ADDR_GROUP)) ||| ETH_ADDR_LOCAL_ADMIN

/-- `generate_random_mac` (lines 34-50).  The entropy source is modelled as
`none` when `/dev/urandom` cannot be opened or the read is short, and
`some bytes` (6 bytes) otherwise. -/
def generate_random_mac : Option (List Nat) → Option (List Nat)
  | none => none
  | some [] => none
  | some (b0 :: rest) =>
    if (b0 :: rest).length = eth_addr_len then some (mac_fixup b0 :: rest)
    else none

/-- The two shared-memory regions of the data model. -/
inductive region where
  | control
  | ingress
deriving DecidableEq

/-- Externally observable mapping actions of `ioqueues_shm_setup` and
`ioqueues_shm_cleanup`. -/
inductive shm_event where
  | map (r : region)
  | unmap (r : region)
deriving DecidableEq

/-- Whether region `r` is still mapped after the actions in `evs`. -/
def mapped_after (evs : List shm_event) (r : region) : Bool :=
  evs.foldl
    (fun s e =>
      match e with
      | shm_event.map r2 => if r2 = r then true else s
      | shm_event.unmap r2 => if r2 = r then false else s)
    false

/-- Environment of one `ioqueues_shm_setup` run: the entropy bytes and
whether each `mem_map_shm` syscall succeeds. -/
structure shm_env where
  entropy : Option (List Nat)
  control_map_ok : Bool
  ingress_map_ok : Bool
deriving DecidableEq

/-- The global state (`netcfg`, `iok`) established by a successful
`ioqueues_shm_setup`.  Offsets are relative to the control-region base. -/
structure shm_setup_state where
  mac : List Nat
  key : List Nat
  thread_count : Nat
  threads : List thread_spec
  tx_buf : Nat
  tx_len : Nat
  next_free : Nat
  shm_len : Nat
deriving DecidableEq

/-- Result of `ioqueues_shm_setup`: C return value, resulting global state
(when successful), and the mapping actions performed. -/
structure shm_setup_result where
  ret : Int
  state : Option shm_setup_state
  events : List shm_event
deriving DecidableEq

/-- `ioqueues_shm_setup` (lines 98-155).  The key is the identity
reinterpreted as a `mem_key_t`, i.e. its first `sizeof_mem_key` bytes
(line 110). -/
def ioqueues_shm_setup (threads : Nat) (env : shm_env) : shm_setup_result :=
  match generate_random_mac env.entropy with
  | none => { ret := -1, state := none, events := [] }
  | some mac =>
    let key := mac.take sizeof_mem_key
    let shm_len := calculate_shm_space threads
    if env.control_map_ok = false then
      { ret := -1, state := none, events := [] }
    else if env.ingress_map_ok = false then
      { ret := -1, state := none,
        events := [shm_event.map region.control, shm_event.unmap region.control] }
    else
      let carved := ioqueues_carve threads
      let tx_buf := align_up carved.2 PGSIZE_2MB
      let tx_len := MBUF_DEFAULT_LEN * PACKET_QUEUE_MCOUNT
      { ret := 0,
        state := some
          { mac := mac, key := key, thread_count := threads,
            threads := carved.1, tx_buf := tx_buf, tx_len := tx_len,
            next_free := tx_buf + tx_len, shm_len := shm_len },
        events := [shm_event.map region.control, shm_event.map region.ingress] }

/-- Result of `ioqueues_init` (lines 256-270): the participant count the
barrier is initialized with (line 261) and the setup outcome. -/
structure ioqueues_init_result where
  barrier_count : Nat
  ret : Int
  setup : shm_setup_result
deriving DecidableEq

/-- `ioqueues_init(threads)`.  `maxks` is the file-scope global the barrier
is initialized with; it is a separate argument because it is not derived
from `threads` inside this function. -/
def ioqueues_init (threads maxks : Nat) (env : shm_env) : ioqueues_init_result :=
  let s := ioqueues_shm_setup threads env
  { barrier_count := maxks, ret := s.ret, setup := s }

/-- Outcome of one `ioqueues_init_thread` call (lines 228-250). -/
inductive init_thread_result where
  | ok (index : Nat)
  | assert_failed
deriving DecidableEq

/-- The registration-counter critical section of `ioqueues_init_thread`
(lines 233-236): assert `nrqs < iok.thread_count`, claim index `nrqs`,
increment the counter. -/
def ioqueues_init_thread (thread_count nrqs : Nat) : init_thread_result × Nat :=
  if nrqs < thread_count then (init_thread_result.ok nrqs, nrqs + 1)
  else (init_thread_result.assert_failed, nrqs)

/-- `n` successive `ioqueues_init_thread` calls starting from `nrqs = 0`. -/
def run_init_threads (thread_count : Nat) : Nat → List init_thread_result × Nat
  | 0 => ([], 0)
  | n + 1 =>
    let prev := run_init_threads thread_count n
    let step := ioqueues_init_thread thread_count prev.2
    (prev.1 ++ [step.1], step.2)

/-- Modelled from the spec: `CONTROL_HDR_MAGIC`, the magic value that
identifies the memory as valid control data. -/
def CONTROL_HDR_MAGIC : Nat := 0x696f6b3a

/-- Modelled from the spec: `SCHED_PRIORITY_NORMAL`, the normal priority
class of the default scheduling configuration. -/
def SCHED_PRIORITY_NORMAL : Nat := 0

/-- `struct sched_spec`: the scheduling configuration of the header. -/
structure sched_spec where
  priority : Nat
  max_cores : Nat
  congestion_latency_us : Nat
  scaleout_latency_us : Nat
deriving DecidableEq

/-- `struct control_hdr` as populated by `ioqueues_register_iokernel`. -/
structure control_hdr where
  magic : Nat
  thread_count : Nat
  mac : List Nat
  sched_cfg : sched_spec
  threads : List thread_spec
deriving DecidableEq

/-- Externally observable actions of `ioqueues_register_iokernel`, in
program order: header-field stores, then channel operations.  `write_key`
and `write_len` carry the value sent and the byte count `write` returned;
`read_response` would be a read from the channel (the source performs
none). -/
inductive hs_event where
  | hdr_write_magic
  | hdr_write_thread_count
  | hdr_write_mac
  | hdr_write_sched_priority
  | hdr_write_sched_max_cores
  | hdr_write_sched_congestion
  | hdr_write_sched_scaleout
  | hdr_copy_threads
  | sock_create
  | sock_connect
  | write_key (key : List Nat) (ret : Int)
  | write_len (len : Nat) (ret : Int)
  | read_response (ret : Int)
  | close_fd
  | shm_unmap (r : region)
deriving DecidableEq

/-- Does an event read from the handshake channel? -/
def reads_response : hs_event → Bool
  | hs_event.read_response _ => true
  | _ => false

/-- The header-population prefix of `ioqueues_register_iokernel`
(lines 175-186), in source order. -/
def hdr_population_events : List hs_event :=
  [hs_event.hdr_write_magic, hs_event.hdr_write_thread_count,
   hs_event.hdr_write_mac, hs_event.hdr_write_sched_priority,
   hs_event.hdr_write_sched_max_cores, hs_event.hdr_write_sched_congestion,
   hs_event.hdr_write_sched_scaleout, hs_event.hdr_copy_threads]

/-- `ioqueues_shm_cleanup` (lines 157-161): unmap the control (tx) region,
then the ingress (rx) region. -/
def ioqueues_shm_cleanup : List hs_event :=
  [hs_event.shm_unmap region.control, hs_event.shm_unmap region.ingress]

/-- Environment of one `ioqueues_register_iokernel` run: whether `socket`
and `connect` succeed, the return values of the two `write` calls, and the
value of `errno` when the failure return is taken. -/
structure handshake_env where
  socket_ok : Bool
  connect_ok : Bool
  write_key_ret : Int
  write_len_ret : Int
  errno : Int
deriving DecidableEq

/-- Result of `ioqueues_register_iokernel`: the header it wrote at offset 0
of the control region, its observable actions, and its return value. -/
structure register_result where
  hdr : control_hdr
  events : List hs_event
  ret : Int
deriving DecidableEq

/-- `ioqueues_register_iokernel` (lines 167-226), reading the globals left
by `ioqueues_shm_setup` (`st`).  Failure paths return `-errno` after
closing the socket (when it was opened) and running
`ioqueues_shm_cleanup`. -/
def ioqueues_register_iokernel (st : shm_setup_state) (env : handshake_env) :
    register_result :=
  let hdr : control_hdr :=
    { magic := CONTROL_HDR_MAGIC
      thread_count := st.thread_count
      mac := st.mac
      sched_cfg :=
        { priority := SCHED_PRIORITY_NORMAL, max_cores := st.thread_count,
          congestion_latency_us := 0, scaleout_latency_us := 0 }
      threads := st.threads.take st.thread_count }
  if env.socket_ok = false then
    { hdr := hdr,
      events := hdr_population_events ++ [hs_event.sock_create]
        ++ ioqueues_shm_cleanup,
      ret := -env.errno }
  else if env.connect_ok = false then
    { hdr := hdr,
      events := hdr_population_events
        ++ [hs_event.sock_create, hs_event.sock_connect, hs_event.close_fd]
        ++ ioqueues_shm_cleanup,
      ret := -env.errno }
  else if env.write_key_ret ≠ (sizeof_mem_key : Int) then
    { hdr := hdr,
      events := hdr_population_events
        ++ [hs_event.sock_create, hs_event.sock_connect,
            hs_event.write_key st.key env.write_key_ret, hs_event.close_fd]
        ++ ioqueues_shm_cleanup,
      ret := -env.errno }
  else if env.write_len_ret ≠ (sizeof_size_t : Int) then
    { hdr := hdr,
      events := hdr_population_events
        ++ [hs_event.sock_create, hs_event.sock_connect,
            hs_event.write_key st.key env.write_key_ret,
            hs_event.write_len st.shm_len env.write_len_ret,
            hs_event.close_fd]
        ++ ioqueues_shm_cleanup,
      ret := -env.errno }
  else
    { hdr := hdr,
      events := hdr_population_events
        ++ [hs_event.sock_create, hs_event.sock_connect,
            hs_event.write_key st.key env.write_key_ret,
            hs_event.write_len st.shm_len env.write_len_ret],
      ret := 0 }

/-- A happy-path environment whose entropy source yields the fixed 6-byte
value AA:BB:CC:DD:EE:FF of the end-to-end scenario. -/
def fixed_entropy_env : shm_env :=
  { entropy := some [0xAA, 0xBB, 0xCC, 0xDD, 0xEE, 0xFF],
    control_map_ok := true, ingress_map_ok := true }

/-- A concrete single-thread setup state used to instantiate the handshake
theorems. -/
def st_demo : shm_setup_state :=
  { mac := [0xAA, 0xBB, 0xCC, 0xDD, 0xEE, 0xFF],
    key := [0xAA, 0xBB, 0xCC, 0xDD],
    thread_count := 1,
    threads := [{ rxq := { msg_buf := 128, wb := 131200, msg_count := 8192 },
                  txpktq := { msg_buf := 131264, wb := 262336, msg_count := 8192 },
                  txcmdq := { msg_buf := 262400, wb := 393472, msg_count := 8192 } }],
    tx_buf := 2097152, tx_len := 16777216, next_free := 18874368,
    shm_len := 18874368 }

/-- A handshake environment in which every step succeeds. -/
def hs_env_ok : handshake_env :=
  { socket_ok := true, connect_ok := true, write_key_ret := 4,
    write_len_ret := 8, errno := 0 }

/-- A handshake environment in which `connect` succeeds but the first
`write` transfers only 2 of the 4 key bytes, with `errno` still 0 (a short
write does not set `errno`). -/
def short_write_env : handshake_env :=
  { socket_ok := true, connect_ok := true, write_key_ret := 2,
    write_len_ret := 8, errno := 0 }

theorem le_align_up (x a : Nat) (ha : 0 < a) : x ≤ align_up x a := by
  unfold align_up
  have h1 := Nat.div_add_mod (x + a - 1) a
  have h2 : (x + a - 1) % a < a := Nat.mod_lt _ ha
  rw [Nat.mul_comm]
  generalize hq : a * ((x + a - 1) / a) = q at h1 ⊢
  generalize hr : (x + a - 1) % a = r at h1 h2
  omega

theorem align_up_mod (x a : Nat) : align_up x a % a = 0 := by
  unfold align_up
  exact Nat.mul_mod_left _ _

theorem align_up_dvd (x a : Nat) : a ∣ align_up x a := by
  unfold align_up
  exact dvd_mul_left a _

theorem align_up_le_align_up (x y a : Nat) (h : x ≤ y) :
    align_up x a ≤ align_up y a := by
  unfold align_up
  exact Nat.mul_le_mul_right a (Nat.div_le_div_right (by omega))

theorem align_up_of_dvd (x a : Nat) (ha : 0 < a) (h : a ∣ x) :
    align_up x a = x := by
  obtain ⟨m, rfl⟩ := h
  unfold align_up
  have h2 : a * m + a - 1 = a * m + (a - 1) := by omega
  have h1 : (a * m + a - 1) / a = m := by
    rw [h2, Nat.mul_add_div ha, Nat.div_eq_of_lt (by omega)]
    omega
  rw [h1, Nat.mul_comm]


theorem chainedIn_le {l : List (Nat × Nat)} :
    ∀ {lo hi : Nat}, ChainedIn lo hi l → lo ≤ hi := by
  induction l with
  | nil => intro lo hi h; exact h
  | cons r rest ih =>
    intro lo hi h
    exact le_trans (le_trans h.1 (Nat.le_add_right _ _)) (ih h.2)

theorem chainedIn_weaken_lo {l : List (Nat × Nat)} :
    ∀ {lo lo2 hi : Nat}, lo2 ≤ lo → ChainedIn lo hi l → ChainedIn lo2 hi l := by
  induction l with
  | nil => intro lo lo2 hi h hc; exact le_trans h hc
  | cons r rest _ => intro lo lo2 hi h hc; exact ⟨le_trans h hc.1, hc.2⟩

theorem chainedIn_append {l1 l2 : List (Nat × Nat)} :
    ∀ {lo mid hi : Nat}, ChainedIn lo mid l1 → ChainedIn mid hi l2 →
      ChainedIn lo hi (l1 ++ l2) := by
  induction l1 with
  | nil => intro lo mid hi h1 h2; exact chainedIn_weaken_lo h1 h2
  | cons r rest ih => intro lo mid hi h1 h2; exact ⟨h1.1, ih h1.2 h2⟩

theorem chainedIn_mem {l : List (Nat × Nat)} :
    ∀ {lo hi : Nat} {r : Nat × Nat}, ChainedIn lo hi l → r ∈ l →
      lo ≤ r.1 ∧ r.1 + r.2 ≤ hi := by
  induction l with
  | nil => intro lo hi r _ hr; cases hr
  | cons a rest ih =>
    intro lo hi r h hr
    cases hr with
    | head => exact ⟨h.1, chainedIn_le h.2⟩
    | tail _ hr2 =>
      have h3 := ih h.2 hr2
      exact ⟨le_trans h.1 (le_trans (Nat.le_add_right _ _) h3.1), h3.2⟩

theorem chainedIn_pairwise {l : List (Nat × Nat)} :
    ∀ {lo hi : Nat}, ChainedIn lo hi l → l.Pairwise RangeDisj := by
  induction l with
  | nil => intro lo hi _; exact List.Pairwise.nil
  | cons a rest ih =>
    intro lo hi h
    refine List.Pairwise.cons ?_ (ih h.2)
    intro b hb
    exact Or.inl (chainedIn_mem h.2 hb).1

theorem ioqueue_alloc_chain (ptr c : Nat) :
    ChainedIn ptr (ioqueue_alloc ptr c).2 (queue_ranges (ioqueue_alloc ptr c).1) := by
  simp only [ioqueue_alloc, queue_ranges, ChainedIn]
  refine ⟨Nat.le_refl _, ?_, ?_⟩
  · exact Nat.add_le_add_left (le_align_up _ _ (by decide)) _
  · exact Nat.add_le_add_left (le_align_up _ _ (by decide)) _

theorem carve_thread_chain (ptr : Nat) :
    ChainedIn ptr (carve_thread ptr).2 (thread_ranges (carve_thread ptr).1) := by
  have h1 := ioqueue_alloc_chain ptr PACKET_QUEUE_MCOUNT
  have h2 := ioqueue_alloc_chain (ioqueue_alloc ptr PACKET_QUEUE_MCOUNT).2
    PACKET_QUEUE_MCOUNT
  have h3 := ioqueue_alloc_chain
    (ioqueue_alloc (ioqueue_alloc ptr PACKET_QUEUE_MCOUNT).2 PACKET_QUEUE_MCOUNT).2
    COMMAND_QUEUE_MCOUNT
  simp only [carve_thread, thread_ranges]
  exact chainedIn_append (chainedIn_append h1 h2) h3

theorem carve_threads_chain (n : Nat) :
    ∀ ptr : Nat, ChainedIn ptr (carve_threads n ptr).2
      (((carve_threads n ptr).1.map thread_ranges).flatten) := by
  induction n with
  | zero =>
    intro ptr
    simp only [carve_threads, List.map_nil, List.flatten_nil]
    exact Nat.le_refl ptr
  | succ m ih =>
    intro ptr
    simp only [carve_threads, List.map_cons, List.flatten_cons]
    exact chainedIn_append (carve_thread_chain ptr) (ih _)

theorem align_pkt_buf :
    align_up (sizeof_lrpc_msg * PACKET_QUEUE_MCOUNT) CACHE_LINE_SIZE = 131072 := by
  decide

theorem align_cmd_buf :
    align_up (sizeof_lrpc_msg * COMMAND_QUEUE_MCOUNT) CACHE_LINE_SIZE = 131072 := by
  decide

theorem align_wb : align_up sizeof_uint32 CACHE_LINE_SIZE = 64 := by decide

theorem carve_thread_snd (ptr : Nat) : (carve_thread ptr).2 = ptr + 393408 := by
  have h : (carve_thread ptr).2 =
      ptr + align_up (sizeof_lrpc_msg * PACKET_QUEUE_MCOUNT) CACHE_LINE_SIZE
        + align_up sizeof_uint32 CACHE_LINE_SIZE
        + align_up (sizeof_lrpc_msg * PACKET_QUEUE_MCOUNT) CACHE_LINE_SIZE
        + align_up sizeof_uint32 CACHE_LINE_SIZE
        + align_up (sizeof_lrpc_msg * COMMAND_QUEUE_MCOUNT) CACHE_LINE_SIZE
        + align_up sizeof_uint32 CACHE_LINE_SIZE := rfl
  rw [align_pkt_buf, align_cmd_buf, align_wb] at h
  omega

theorem carve_threads_snd (n : Nat) :
    ∀ ptr : Nat, (carve_threads n ptr).2 = ptr + 393408 * n := by
  induction n with
  | zero => intro ptr; simp [carve_threads]
  | succ m ih =>
    intro ptr
    simp only [carve_threads]
    rw [ih, carve_thread_snd]
    omega

theorem calculate_shm_space_eq (T : Nat) :
    calculate_shm_space T =
      align_up (carve_start T + 393408 * T) PGSIZE_2MB
        + MBUF_DEFAULT_LEN * PACKET_QUEUE_MCOUNT := by
  have hqp : align_up (sizeof_lrpc_msg * PACKET_QUEUE_MCOUNT) CACHE_LINE_SIZE
      + align_up sizeof_uint32 CACHE_LINE_SIZE = 131136 := by decide
  have hqc : align_up (sizeof_lrpc_msg * COMMAND_QUEUE_MCOUNT) CACHE_LINE_SIZE
      + align_up sizeof_uint32 CACHE_LINE_SIZE = 131136 := by decide
  have harg : align_up (sizeof_control_hdr + sizeof_thread_spec * T) CACHE_LINE_SIZE
      + 2 * 131136 * T + 131136 * T = carve_start T + 393408 * T := by
    unfold carve_start
    omega
  have hdvd : PGSIZE_2MB ∣ (align_up (carve_start T + 393408 * T) PGSIZE_2MB
      + MBUF_DEFAULT_LEN * PACKET_QUEUE_MCOUNT) :=
    Nat.dvd_add (align_up_dvd _ _) ⟨8, by decide⟩
  simp only [calculate_shm_space]
  rw [hqp, hqc, harg]
  exact align_up_of_dvd _ _ (by decide) hdvd

/-- C1: carving the control region for any thread count `T` (the cursor
walk of `ioqueues_shm_setup` calling `ioqueue_alloc` for the receive,
transmit-packet and transmit-command queue of each thread in ascending
index order) produces queue descriptors whose message-buffer and
write-back ranges are pairwise non-overlapping, and every range lies
within `[0, calculate_shm_space T)`. -/
theorem carve_ranges_disjoint_and_bounded (T : Nat) :
    (carve_ranges T).Pairwise RangeDisj ∧
    ∀ r ∈ carve_ranges T, r.1 + r.2 ≤ calculate_shm_space T := by
  have hchain := carve_threads_chain T (carve_start T)
  constructor
  · simp only [carve_ranges, ioqueues_carve]
    exact chainedIn_pairwise hchain
  · intro r hr
    simp only [carve_ranges, ioqueues_carve] at hr
    have hm := (chainedIn_mem hchain hr).2
    have hsnd := carve_threads_snd T (carve_start T)
    have heq := calculate_shm_space_eq T
    have hle : carve_start T + 393408 * T ≤
        align_up (carve_start T + 393408 * T) PGSIZE_2MB :=
      le_align_up _ _ (by decide)
    have hp : MBUF_DEFAULT_LEN * PACKET_QUEUE_MCOUNT = 16777216 := by decide
    rw [hp] at heq
    omega

/-- Witness for C1: the first carved range of a one-thread layout is a
member of `carve_ranges 1` and the theorem bounds it by
`calculate_shm_space 1`. -/
theorem carve_ranges_disjoint_and_bounded_witness :
    ((128, 131072) : Nat × Nat) ∈ carve_ranges 1 ∧
      (128 : Nat) + 131072 ≤ calculate_shm_space 1 :=
  ⟨by decide, (carve_ranges_disjoint_and_bounded 1).2 (128, 131072) (by decide)⟩

/-- C2: for every thread count `T ≥ 1`, `calculate_shm_space T` is a
multiple of the huge-page size, strictly greater than the sum of the
header size, the descriptor-table size and all per-thread queue sizes, and
monotonically non-decreasing in `T`. -/
theorem calculate_shm_space_props (T : Nat) (h : 1 ≤ T) :
    calculate_shm_space T % PGSIZE_2MB = 0 ∧
    raw_layout_sum T < calculate_shm_space T ∧
    ∀ T2, T ≤ T2 → calculate_shm_space T ≤ calculate_shm_space T2 := by
  refine ⟨?_, ?_, ?_⟩
  · simp only [calculate_shm_space]
    exact align_up_mod _ _
  · have heq := calculate_shm_space_eq T
    have h1 := le_align_up (carve_start T + 393408 * T) PGSIZE_2MB (by decide)
    have h2 : sizeof_control_hdr + sizeof_thread_spec * T ≤ carve_start T := by
      unfold carve_start
      exact le_align_up _ _ (by decide)
    have h3 : 2 * queue_size PACKET_QUEUE_MCOUNT
        + queue_size COMMAND_QUEUE_MCOUNT = 393408 := by decide
    have hp : MBUF_DEFAULT_LEN * PACKET_QUEUE_MCOUNT = 16777216 := by decide
    rw [hp] at heq
    unfold raw_layout_sum
    rw [h3]
    simp only [sizeof_control_hdr, sizeof_thread_spec] at h2 ⊢
    omega
  · intro T2 hT
    rw [calculate_shm_space_eq T, calculate_shm_space_eq T2]
    have hc : carve_start T ≤ carve_start T2 := by
      unfold carve_start
      exact align_up_le_align_up _ _ _
        (Nat.add_le_add_left (Nat.mul_le_mul_left _ hT) _)
    have hm : 393408 * T ≤ 393408 * T2 := Nat.mul_le_mul_left _ hT
    exact Nat.add_le_add_right
      (align_up_le_align_up _ _ _ (Nat.add_le_add hc hm)) _

/-- Witness for C2, at thread counts 1 and 2. -/
theorem calculate_shm_space_props_witness :
    1 ≤ 1 ∧ calculate_shm_space 1 % PGSIZE_2MB = 0 ∧
      raw_layout_sum 1 < calculate_shm_space 1 ∧
      calculate_shm_space 1 ≤ calculate_shm_space 2 :=
  ⟨Nat.le_refl 1, (calculate_shm_space_props 1 (Nat.le_refl 1)).1,
   (calculate_shm_space_props 1 (Nat.le_refl 1)).2.1,
   (calculate_shm_space_props 1 (Nat.le_refl 1)).2.2 2 (by decide)⟩

/-- C10: the transmit buffer pool (`MBUF_DEFAULT_LEN` bytes per slot of the
packet-queue capacity) is reserved regardless of the thread count:
`calculate_shm_space 0` is nonzero, and for every `T` the computed length
is at least the pool size. -/
theorem tx_pool_reserved_for_zero_threads :
    0 < calculate_shm_space 0 ∧
    ∀ T : Nat, MBUF_DEFAULT_LEN * PACKET_QUEUE_MCOUNT ≤ calculate_shm_space T := by
  have hall : ∀ T : Nat,
      MBUF_DEFAULT_LEN * PACKET_QUEUE_MCOUNT ≤ calculate_shm_space T := by
    intro T
    rw [calculate_shm_space_eq T]
    exact Nat.le_add_left _ _
  exact ⟨lt_of_lt_of_le (by decide) (hall 0), hall⟩

/-- Counterexample for C3: with entropy AA:BB:CC:DD:EE:FF, the identity
produced by the fixup rule (clear bit 0, set bit 1 of the first byte) is
not A9:BB:CC:DD:EE:FF — 0xAA already has bit 0 clear and bit 1 set, so the
identity stays AA:BB:CC:DD:EE:FF. -/
theorem mac_identity_not_a9 :
    (ioqueues_shm_setup 4 fixed_entropy_env).state.map shm_setup_state.mac ≠
      some [0xA9, 0xBB, 0xCC, 0xDD, 0xEE, 0xFF] := by
  decide

/-- C3 (amended): with entropy AA:BB:CC:DD:EE:FF the fixup rule yields the
identity AA:BB:CC:DD:EE:FF; this identity is the value whose leading
`sizeof_mem_key` bytes form the shared-memory key, and it is the identity
field written into the control header during the handshake. -/
theorem mac_identity_flow :
    (ioqueues_shm_setup 4 fixed_entropy_env).state.map shm_setup_state.mac =
      some [0xAA, 0xBB, 0xCC, 0xDD, 0xEE, 0xFF] ∧
    (ioqueues_shm_setup 4 fixed_entropy_env).state.map shm_setup_state.key =
      some (List.take sizeof_mem_key [0xAA, 0xBB, 0xCC, 0xDD, 0xEE, 0xFF]) ∧
    (ioqueues_shm_setup 4 fixed_entropy_env).state.map
        (fun s => (ioqueues_register_iokernel s hs_env_ok).hdr.mac) =
      some [0xAA, 0xBB, 0xCC, 0xDD, 0xEE, 0xFF] := by
  refine ⟨?_, ?_, ?_⟩ <;> rfl

/-- Counterexample for C4: `ioqueues_init` with thread-count argument 2
while the global `maxks` is 3 initializes the barrier with participant
count 3, not 2. -/
theorem barrier_count_not_threads_arg :
    (ioqueues_init 2 3 fixed_entropy_env).barrier_count ≠ 2 := by
  decide

/-- C4 (amended): the barrier of `ioqueues_init` is initialized with the
file-scope global `maxks`, not with the `threads` argument (the two
coincide only when the caller passes `maxks`); the configured thread count
recorded in the shared state is the `threads` argument. -/
theorem barrier_sized_by_maxks (threads maxks : Nat) :
    (ioqueues_init threads maxks fixed_entropy_env).barrier_count = maxks ∧
    (ioqueues_init threads maxks fixed_entropy_env).setup.state.map
        shm_setup_state.thread_count = some threads := by
  exact ⟨rfl, rfl⟩

/-- C6: if mapping the ingress region fails after the control region was
successfully mapped, `ioqueues_shm_setup` unmaps the control region before
returning the error, leaving neither region mapped. -/
theorem ingress_map_failure_unwinds (e : Option (List Nat)) (T : Nat)
    (he : (generate_random_mac e).isSome = true) :
    (ioqueues_shm_setup T
        { entropy := e, control_map_ok := true, ingress_map_ok := false }).ret = -1 ∧
    (ioqueues_shm_setup T
        { entropy := e, control_map_ok := true, ingress_map_ok := false }).state = none ∧
    (ioqueues_shm_setup T
        { entropy := e, control_map_ok := true, ingress_map_ok := false }).events =
      [shm_event.map region.control, shm_event.unmap region.control] ∧
    mapped_after (ioqueues_shm_setup T
        { entropy := e, control_map_ok := true, ingress_map_ok := false }).events
      region.control = false ∧
    mapped_after (ioqueues_shm_setup T
        { entropy := e, control_map_ok := true, ingress_map_ok := false }).events
      region.ingress = false := by
  cases hgen : generate_random_mac e with
  | none => rw [hgen] at he; cases he
  | some mac =>
    simp only [ioqueues_shm_setup, hgen]
    exact ⟨rfl, rfl, rfl, rfl, rfl⟩

/-- Witness for C6: a concrete entropy source and thread count. -/
theorem ingress_map_failure_unwinds_witness :
    (generate_random_mac (some [0, 0, 0, 0, 0, 0])).isSome = true ∧
    ((ioqueues_shm_setup 1
        { entropy := some [0, 0, 0, 0, 0, 0], control_map_ok := true,
          ingress_map_ok := false }).ret = -1 ∧
      (ioqueues_shm_setup 1
        { entropy := some [0, 0, 0, 0, 0, 0], control_map_ok := true,
          ingress_map_ok := false }).state = none ∧
      (ioqueues_shm_setup 1
        { entropy := some [0, 0, 0, 0, 0, 0], control_map_ok := true,
          ingress_map_ok := false }).events =
        [shm_event.map region.control, shm_event.unmap region.control] ∧
      mapped_after (ioqueues_shm_setup 1
        { entropy := some [0, 0, 0, 0, 0, 0], control_map_ok := true,
          ingress_map_ok := false }).events region.control = false ∧
      mapped_after (ioqueues_shm_setup 1
        { entropy := some [0, 0, 0, 0, 0, 0], control_map_ok := true,
          ingress_map_ok := false }).events region.ingress = false) :=
  ⟨by decide, ingress_map_failure_unwinds (some [0, 0, 0, 0, 0, 0]) 1 (by decide)⟩

theorem run_init_threads_ok (T : Nat) :
    ∀ n, n ≤ T → (run_init_threads T n).2 = n ∧
      init_thread_result.assert_failed ∉ (run_init_threads T n).1 := by
  intro n
  induction n with
  | zero => intro _; exact ⟨rfl, by simp [run_init_threads]⟩
  | succ m ih =>
    intro h
    have hm := ih (Nat.le_of_succ_le h)
    simp only [run_init_threads]
    constructor
    · rw [hm.1]
      simp only [ioqueues_init_thread]
      rw [if_pos (Nat.lt_of_succ_le h)]
    · intro hmem
      rcases List.mem_append.mp hmem with h1 | h2
      · exact hm.2 h1
      · rw [hm.1] at h2
        simp only [ioqueues_init_thread] at h2
        rw [if_pos (Nat.lt_of_succ_le h)] at h2
        simp at h2

/-- C7: with configured thread count `T`, the first `n ≤ T` calls to
`ioqueues_init_thread` all succeed (the assertion `nrqs < iok.thread_count`
never fires and the counter ends at `n`), while a (T+1)-th call, made after
`T` threads have registered, trips the fatal assertion. -/
theorem init_thread_overrun_asserts (T n : Nat) (h : n ≤ T) :
    ((run_init_threads T n).2 = n ∧
      init_thread_result.assert_failed ∉ (run_init_threads T n).1) ∧
    (ioqueues_init_thread T (run_init_threads T T).2).1 =
      init_thread_result.assert_failed := by
  refine ⟨run_init_threads_ok T n h, ?_⟩
  rw [(run_init_threads_ok T T (Nat.le_refl T)).1]
  simp [ioqueues_init_thread]

/-- Witness for C7 at `T = 2`, `n = 2`. -/
theorem init_thread_overrun_asserts_witness :
    2 ≤ 2 ∧ (((run_init_threads 2 2).2 = 2 ∧
      init_thread_result.assert_failed ∉ (run_init_threads 2 2).1) ∧
    (ioqueues_init_thread 2 (run_init_threads 2 2).2).1 =
      init_thread_result.assert_failed) :=
  ⟨Nat.le_refl 2, init_thread_overrun_asserts 2 2 (Nat.le_refl 2)⟩

/-- C8: `ioqueues_register_iokernel` fully populates the control header
(magic, thread count, generated identity, normal priority, max cores equal
to the thread count, zero latency targets, and a copy of every thread
descriptor) and does so before any channel operation: in every environment
the first eight observable actions are the header stores. -/
theorem register_populates_header_first (st : shm_setup_state)
    (env : handshake_env) (hlen : st.threads.length = st.thread_count) :
    (ioqueues_register_iokernel st env).hdr =
      { magic := CONTROL_HDR_MAGIC, thread_count := st.thread_count,
        mac := st.mac,
        sched_cfg := { priority := SCHED_PRIORITY_NORMAL,
                       max_cores := st.thread_count,
                       congestion_latency_us := 0, scaleout_latency_us := 0 },
        threads := st.threads } ∧
    (ioqueues_register_iokernel st env).events.take 8 = hdr_population_events := by
  have htake : st.threads.take st.thread_count = st.threads := by
    rw [← hlen]
    simp
  constructor
  · have hh : (ioqueues_register_iokernel st env).hdr =
        { magic := CONTROL_HDR_MAGIC, thread_count := st.thread_count,
          mac := st.mac,
          sched_cfg := { priority := SCHED_PRIORITY_NORMAL,
                         max_cores := st.thread_count,
                         congestion_latency_us := 0, scaleout_latency_us := 0 },
          threads := st.threads.take st.thread_count } := by
      unfold ioqueues_register_iokernel
      repeat' split
      all_goals rfl
    rw [hh, htake]
  · unfold ioqueues_register_iokernel
    repeat' split
    all_goals rfl

/-- Witness for C8 at a concrete setup state and environment. -/
theorem register_populates_header_first_witness :
    st_demo.threads.length = st_demo.thread_count ∧
    ((ioqueues_register_iokernel st_demo hs_env_ok).hdr =
      { magic := CONTROL_HDR_MAGIC, thread_count := st_demo.thread_count,
        mac := st_demo.mac,
        sched_cfg := { priority := SCHED_PRIORITY_NORMAL,
                       max_cores := st_demo.thread_count,
                       congestion_latency_us := 0, scaleout_latency_us := 0 },
        threads := st_demo.threads } ∧
    (ioqueues_register_iokernel st_demo hs_env_ok).events.take 8 =
      hdr_population_events) :=
  ⟨by decide, register_populates_header_first st_demo hs_env_ok (by decide)⟩

/-- C9: when `socket`, `connect` and both writes succeed, the channel
actions after the header stores are exactly connect followed by two sends
— first the shared-memory key, then the control region's total byte length
— and no read from the channel ever occurs. -/
theorem register_wire_contract (st : shm_setup_state) (env : handshake_env)
    (h1 : env.socket_ok = true) (h2 : env.connect_ok = true)
    (h3 : env.write_key_ret = (sizeof_mem_key : Int))
    (h4 : env.write_len_ret = (sizeof_size_t : Int)) :
    (ioqueues_register_iokernel st env).events =
      hdr_population_events ++
        [hs_event.sock_create, hs_event.sock_connect,
         hs_event.write_key st.key (sizeof_mem_key : Int),
         hs_event.write_len st.shm_len (sizeof_size_t : Int)] ∧
    (ioqueues_register_iokernel st env).ret = 0 ∧
    (ioqueues_register_iokernel st env).events.any reads_response = false := by
  unfold ioqueues_register_iokernel
  rw [h1, h2, h3, h4]
  refine ⟨?_, ?_, ?_⟩ <;>
    simp [hdr_population_events, reads_response]

/-- Witness for C9 at a concrete setup state and all-success environment. -/
theorem register_wire_contract_witness :
    hs_env_ok.socket_ok = true ∧ hs_env_ok.connect_ok = true ∧
    hs_env_ok.write_key_ret = (sizeof_mem_key : Int) ∧
    hs_env_ok.write_len_ret = (sizeof_size_t : Int) ∧
    ((ioqueues_register_iokernel st_demo hs_env_ok).events =
      hdr_population_events ++
        [hs_event.sock_create, hs_event.sock_connect,
         hs_event.write_key st_demo.key (sizeof_mem_key : Int),
         hs_event.write_len st_demo.shm_len (sizeof_size_t : Int)] ∧
     (ioqueues_register_iokernel st_demo hs_env_ok).ret = 0 ∧
     (ioqueues_register_iokernel st_demo hs_env_ok).events.any reads_response
       = false) :=
  ⟨rfl, rfl, rfl, rfl,
   register_wire_contract st_demo hs_env_ok rfl rfl rfl rfl⟩

/-- C5 (code bug): a short write of the key (2 of the 4 bytes transferred)
with `errno` still 0 takes the failure path — the socket is closed, both
regions are unmapped, the length value is never sent — yet `return -errno`
makes the function return 0, the success value, contradicting the
guarantee that send failures yield a nonzero error. -/
theorem register_short_write_silent_success :
    (ioqueues_register_iokernel st_demo short_write_env).ret = 0 ∧
    hs_event.close_fd ∈
      (ioqueues_register_iokernel st_demo short_write_env).events ∧
    hs_event.shm_unmap region.control ∈
      (ioqueues_register_iokernel st_demo short_write_env).events ∧
    hs_event.shm_unmap region.ingress ∈
      (ioqueues_register_iokernel st_demo short_write_env).events ∧
    hs_event.write_len st_demo.shm_len 8 ∉
      (ioqueues_register_iokernel st_demo short_write_env).events := by
  decide
